import Mathlib

/-!
# DDL-versus-DELETE stress harness (`main.go`)

A shallow embedding of the workers of `main.go` and the properties of their
batch generation, error classification and statement sequencing.

Conventions of the embedding:

* Go `int` values are integers wrapped to 64 bits (`wrapInt64`).
* A Go `error` is `Option String`: `none` is `nil`, `some m` is a non-nil error
  whose `Error()` text is `m`.
* The database handle is a `Store`: a state machine answering every
  `db.Exec(query, args...)` with either a number of affected rows or an error
  text.  Theorems quantify over every store, hence over every answer the
  database may give, also the answers caused by concurrent workers.
* Every effect (statement, console line, logger line, sleep) is appended to the
  `trace` of the `World`.
* A Go run-time panic is the error side of `Except Panic`.
* The calls to `math/rand` are the fields of `Draws`, one record per loop
  iteration.
-/

namespace DdlAndDelete

/-! ## Constants (`main.go` lines 16-25) -/

/-- Size of padding in bytes (`paddingSize`). -/
def paddingSize : Nat := 256

/-- Exclusive upper bound of the contention key (`maxValue0`). -/
def maxValue0 : Int := 1000

/-! ## Go primitives -/

/-- Two's-complement wrap of an integer into the 64-bit range of Go's `int`. -/
def wrapInt64 (x : Int) : Int := (x + 2 ^ 63) % 2 ^ 64 - 2 ^ 63

/-- Go `a + b` on `int`. -/
def goAdd (a b : Int) : Int := wrapInt64 (a + b)

/-- Go `a * b` on `int`. -/
def goMul (a b : Int) : Int := wrapInt64 (a * b)

/-- Go `a % b` on `int` (truncated remainder), for a non-zero divisor. -/
def goRem (a b : Int) : Int := Int.tmod a b

/-- Scan of a character list for an occurrence of `sub`. -/
def containsChars (sub : List Char) : List Char → Bool
  | [] => sub.isEmpty
  | c :: cs => sub.isPrefixOf (c :: cs) || containsChars sub cs

/-- Go `strings.Contains(s, substr)`. -/
def stringsContains (s substr : String) : Bool :=
  containsChars substr.toList s.toList

/-- Go `strings.Join(elems, sep)`. -/
def stringsJoin (elems : List String) (sep : String) : String :=
  sep.intercalate elems

/-- One hexadecimal digit, lower case, as `encoding/hex` writes it. -/
def hexDigit (n : Nat) : Char :=
  ['0', '1', '2', '3', '4', '5', '6', '7', '8', '9', 'a', 'b', 'c', 'd', 'e', 'f'].getD n '0'

/-- Go `hex.EncodeToString`: two digits per byte, high nibble first. -/
def hexEncodeToString (bytes : List Nat) : String :=
  String.mk (bytes.flatMap fun b => [hexDigit (b / 16), hexDigit (b % 16)])

/-- Run-time panics of the program. -/
inductive Panic where
  | indexOutOfRange (index length : Nat)
  | sliceBoundsOutOfRange (high capacity : Nat)
  | logPanicf (msg : String)
  deriving DecidableEq, Repr

/-- A Go `[]byte`: the backing array from the slice's first element on (its
length is the capacity) and the slice length. -/
structure ByteSlice where
  backing : List Nat
  len : Nat
  deriving DecidableEq, Repr

/-- Go `cap(b)`. -/
def ByteSlice.cap (b : ByteSlice) : Nat := b.backing.length

/-- Go `make([]byte, n)`. -/
def makeBytes (n : Nat) : ByteSlice := { backing := List.replicate n 0, len := n }

/-- Go `b[:high]`: allowed up to the capacity, a panic beyond it. -/
def ByteSlice.resliceTo (b : ByteSlice) (high : Nat) : Except Panic ByteSlice :=
  if high ≤ b.cap then .ok { b with len := high }
  else .error (.sliceBoundsOutOfRange high b.cap)

/-- The bytes visible through the slice. -/
def ByteSlice.bytes (b : ByteSlice) : List Nat := b.backing.take b.len

/-- Go `rand.Read(b)`: overwrites the `len(b)` visible bytes with random bytes
(`src j` is the draw for position `j`). -/
def randRead (src : Nat → Nat) (b : ByteSlice) : ByteSlice :=
  { b with backing := (List.range b.len).map (fun j => src j % 256) ++ b.backing.drop b.len }

/-- Go `xs[i] = v` on a slice of length `xs.length`. -/
def setIndex {α : Type} (xs : List α) (i : Nat) (v : α) : Except Panic (List α) :=
  if i < xs.length then .ok (xs.set i v) else .error (.indexOutOfRange i xs.length)

/-! ## Store and effects -/

/-- A positional argument of a statement. -/
inductive Arg where
  | int (v : Int)
  | str (s : String)
  deriving DecidableEq, Repr

/-- The database behind `*sql.DB`: `exec st query args` is the next state and
either the number of affected rows or the text of the error. -/
structure Store (σ : Type) where
  exec : σ → String → List Arg → σ × Except String Int

/-- Observable effects, in program order. -/
inductive Event where
  | exec (query : String) (args : List Arg)
  | stdout (text : String)
  | logged (text : String)
  | sleep (milliseconds : Nat)
  deriving DecidableEq, Repr

/-- State of the database together with everything done so far. -/
structure World (σ : Type) where
  db : σ
  trace : List Event

/-- Appends one effect to the trace. -/
def World.emit {σ : Type} (w : World σ) (e : Event) : World σ :=
  { w with trace := w.trace ++ [e] }

/-- Go `db.Exec(query, args...)`. -/
def dbExec {σ : Type} (S : Store σ) (w : World σ) (query : String) (args : List Arg) :
    World σ × Except String Int :=
  ({ db := (S.exec w.db query args).1, trace := w.trace ++ [Event.exec query args] },
   (S.exec w.db query args).2)

/-- The statements of a trace, in order. -/
def execsOf : List Event → List (String × List Arg)
  | [] => []
  | Event.exec q a :: t => (q, a) :: execsOf t
  | _ :: t => execsOf t

/-! ## `insertRows` (lines 160-185) -/

/-- The `range` loop of `insertRows` building `args`; `i` is the loop index. -/
def insertRowsArgs (val1Values : List Int) (paddingValues : List String) :
    List Int → Nat → List Arg → Except Panic (List Arg)
  | [], _, args => .ok args
  | val0 :: rest, i, args =>
    match val1Values[i]? with
    | none => .error (.indexOutOfRange i val1Values.length)
    | some val1 =>
      match paddingValues[i]? with
      | none => .error (.indexOutOfRange i paddingValues.length)
      | some padding =>
        insertRowsArgs val1Values paddingValues rest (i + 1)
          (args ++ [Arg.int val0, Arg.int val1, Arg.str padding])

/-- Text of the bulk INSERT for `n` rows. -/
def insertQuery (n : Nat) : String :=
  "INSERT INTO `uniq`.`rows` (val0, val1, padding) VALUES " ++
    stringsJoin (List.replicate n "(?, ?, ?)") ", "

/-- Go `insertRows`. -/
def insertRows {σ : Type} (S : Store σ) (val0Values val1Values : List Int)
    (paddingValues : List String) (workerID : Int) (w : World σ) :
    World σ × Except Panic (Option String) :=
  match insertRowsArgs val1Values paddingValues val0Values 0 [] with
  | .error p => (w, .error p)
  | .ok args =>
    match (dbExec S w (insertQuery val0Values.length) args).2 with
    | .error msg =>
      if stringsContains msg "Duplicate entry" then
        ((dbExec S w (insertQuery val0Values.length) args).1.emit
            (.stdout ("Worker " ++ toString workerID ++ " - Duplicate key ignored\n")),
         .ok none)
      else
        ((dbExec S w (insertQuery val0Values.length) args).1,
         .ok (some ("insert failed: " ++ msg)))
    | .ok _ =>
      ((dbExec S w (insertQuery val0Values.length) args).1.emit
          (.stdout ("Worker " ++ toString workerID ++ " - Inserted " ++
            toString val0Values.length ++ " rows\n")),
       .ok none)

/-! ## `deleteRows` (lines 187-217) -/

/-- Text of the bulk DELETE for `n` keys. -/
def deleteQuery (n : Nat) : String :=
  "DELETE FROM `uniq`.`rows` WHERE val0 IN (" ++
    stringsJoin (List.replicate n "?") ", " ++ ")"

/-- Go `deleteRows`. -/
def deleteRows {σ : Type} (S : Store σ) (val0Values : List Int) (workerID : Int)
    (w : World σ) : World σ × Option String :=
  if val0Values.length = 0 then (w, none)
  else
    match (dbExec S w (deleteQuery val0Values.length) (val0Values.map Arg.int)).2 with
    | .error msg =>
      if stringsContains msg "public column" && stringsContains msg "has changed" then
        ((dbExec S w (deleteQuery val0Values.length) (val0Values.map Arg.int)).1.emit
            (.stdout ("Worker " ++ toString workerID ++
              " - Ignore public column has changed error (" ++ msg ++ ")\n")),
         none)
      else
        ((dbExec S w (deleteQuery val0Values.length) (val0Values.map Arg.int)).1,
         some ("delete failed: " ++ msg))
    | .ok rowsAffected =>
      ((dbExec S w (deleteQuery val0Values.length) (val0Values.map Arg.int)).1.emit
          (.stdout ("Worker " ++ toString workerID ++ " - Deleted " ++
            toString rowsAffected ++ " rows\n")),
       none)

/-! ## `insertDeleteWorker` (lines 118-158) -/

/-- The random draws of one loop iteration: `sizeIdx` is `rand.Intn(4)`,
`start` is `rand.Intn(maxValue0)`, and `padBytes i j` is byte `j` of the
`rand.Read` call made for row `i`. -/
structure Draws where
  sizeIdx : Nat
  start : Nat
  padBytes : Nat → Nat → Nat

/-- The table `[]int{10, 50, 100, 200}` of batch sizes. -/
def rowsPerOperationTable : List Nat := [10, 50, 100, 200]

/-- Local variables of the row loop (lines 127-140). -/
structure GenState where
  val0Values : List Int
  val1Values : List Int
  paddingValues : List String
  paddingBuffer : ByteSlice
  val0 : Int

/-- The loop `for i := 0; i < rowsPerOperation; i++` of lines 132-140, started
at index `i` with `remaining = rowsPerOperation - i` rounds to go. -/
def fillRows (d : Draws) : Nat → Nat → GenState → Except Panic GenState
  | 0, _, st => .ok st
  | remaining + 1, i, st =>
    match setIndex st.val0Values i st.val0 with
    | .error p => .error p
    | .ok v0 =>
      match setIndex st.val1Values i (goMul st.val0 10) with
      | .error p => .error p
      | .ok v1 =>
        match setIndex st.paddingValues i
            (hexEncodeToString (randRead (d.padBytes i) st.paddingBuffer).bytes) with
        | .error p => .error p
        | .ok pv =>
          fillRows d remaining (i + 1)
            { val0Values := v0, val1Values := v1, paddingValues := pv,
              paddingBuffer := randRead (d.padBytes i) st.paddingBuffer,
              val0 := goRem (goAdd st.val0 1) maxValue0 }

/-- Lines 124-140: the batch of one iteration, from the draws and the padding
buffer left by the previous iteration. -/
def generateBatch (d : Draws) (paddingBuffer : ByteSlice) : Except Panic GenState :=
  match rowsPerOperationTable[d.sizeIdx]? with
  | none => .error (.indexOutOfRange d.sizeIdx rowsPerOperationTable.length)
  | some rowsPerOperation =>
    match paddingBuffer.resliceTo (rowsPerOperation / 2) with
    | .error p => .error p
    | .ok buf =>
      fillRows d rowsPerOperation 0
        { val0Values := List.replicate rowsPerOperation 0,
          val1Values := List.replicate rowsPerOperation 0,
          paddingValues := List.replicate rowsPerOperation "",
          paddingBuffer := buf,
          val0 := (d.start : Int) }

/-- Lines 142-148 for a generated batch: the bulk insert, the logging of its
error if it returned one, and the first sleep. -/
def insertStep {σ : Type} (S : Store σ) (workerID : Int) (b : GenState) (w : World σ) :
    World σ × Except Panic Unit :=
  match (insertRows S b.val0Values b.val1Values b.paddingValues workerID w).2 with
  | .error p => ((insertRows S b.val0Values b.val1Values b.paddingValues workerID w).1, .error p)
  | .ok (some e) =>
    (((insertRows S b.val0Values b.val1Values b.paddingValues workerID w).1.emit
        (.logged ("Worker " ++ toString workerID ++ " - Insert error: " ++ e))).emit
        (.sleep 500),
     .ok ())
  | .ok none =>
    ((insertRows S b.val0Values b.val1Values b.paddingValues workerID w).1.emit (.sleep 500),
     .ok ())

/-- Lines 150-156 for a generated batch: the bulk delete, the panic on its
error, and the second sleep.  The result is the padding buffer carried to the
next round, or the panic. -/
def deleteStep {σ : Type} (S : Store σ) (workerID : Int) (b : GenState) (w : World σ) :
    World σ × Except Panic ByteSlice :=
  match (deleteRows S b.val0Values workerID w).2 with
  | some e =>
    ((deleteRows S b.val0Values workerID w).1.emit
        (.logged ("Worker " ++ toString workerID ++ " - Delete error: " ++ e)),
     .error (.logPanicf ("Worker " ++ toString workerID ++ " - Delete error: " ++ e)))
  | none =>
    ((deleteRows S b.val0Values workerID w).1.emit (.sleep 500), .ok b.paddingBuffer)

/-- One round of the `for` loop of `insertDeleteWorker`. -/
def insertDeleteWorkerIter {σ : Type} (S : Store σ) (workerID : Int) (d : Draws)
    (paddingBuffer : ByteSlice) (w : World σ) : World σ × Except Panic ByteSlice :=
  match generateBatch d paddingBuffer with
  | .error p => (w, .error p)
  | .ok b =>
    match (insertStep S workerID b w).2 with
    | .error p => ((insertStep S workerID b w).1, .error p)
    | .ok _ => deleteStep S workerID b (insertStep S workerID b w).1

/-- The first `rounds` rounds of the endless loop of `insertDeleteWorker`,
where `k` numbers the round about to run and `draws k` are its draws.  A panic
ends the loop. -/
def insertDeleteWorkerLoop {σ : Type} (S : Store σ) (workerID : Int) (draws : Nat → Draws) :
    Nat → Nat → ByteSlice → World σ → World σ × Except Panic ByteSlice
  | 0, _, paddingBuffer, w => (w, .ok paddingBuffer)
  | rounds + 1, k, paddingBuffer, w =>
    match (insertDeleteWorkerIter S workerID (draws k) paddingBuffer w).2 with
    | .error p => ((insertDeleteWorkerIter S workerID (draws k) paddingBuffer w).1, .error p)
    | .ok buf =>
      insertDeleteWorkerLoop S workerID draws rounds (k + 1) buf
        (insertDeleteWorkerIter S workerID (draws k) paddingBuffer w).1

/-- Go `insertDeleteWorker`, observed for its first `rounds` rounds. -/
def insertDeleteWorker {σ : Type} (S : Store σ) (workerID : Int) (draws : Nat → Draws)
    (rounds : Nat) (w : World σ) : World σ × Except Panic ByteSlice :=
  insertDeleteWorkerLoop S workerID draws rounds 0 (makeBytes (paddingSize / 2))
    (w.emit (.stdout ("Worker " ++ toString workerID ++ " started\n")))

/-! ## `ddlWorker` (lines 219-247) -/

/-- Text of the ALTER that gives `column` the type `ty`. -/
def alterQuery (column ty : String) : String :=
  "ALTER TABLE `uniq`.`rows` MODIFY COLUMN `" ++ column ++ "` " ++ ty ++ " NOT NULL"

/-- One ALTER of `ddlWorker` with the lines printed around it. -/
def ddlModify {σ : Type} (S : Store σ) (column ty : String) (w : World σ) : World σ :=
  let w1 := w.emit (.stdout ("DDL - Modifying " ++ column ++ " to " ++ ty ++ "\n"))
  match (dbExec S w1 (alterQuery column ty) []).2 with
  | .error msg =>
    (dbExec S w1 (alterQuery column ty) []).1.emit
      (.logged ("DDL error (" ++ ty ++ "): " ++ msg))
  | .ok _ =>
    (dbExec S w1 (alterQuery column ty) []).1.emit
      (.stdout ("DDL - Successfully modified " ++ column ++ " to " ++ ty ++ "\n"))

/-- One round of the `for` loop of `ddlWorker`. -/
def ddlWorkerIter {σ : Type} (S : Store σ) (w : World σ) : World σ :=
  ddlModify S "val0" "int" (ddlModify S "val0" "bigint" (w.emit (.sleep 1000)))

/-- The first `rounds` rounds of the endless loop of `ddlWorker`. -/
def ddlWorkerLoop {σ : Type} (S : Store σ) : Nat → World σ → World σ
  | 0, w => w
  | rounds + 1, w => ddlWorkerLoop S rounds (ddlWorkerIter S w)

/-- Go `ddlWorker`, observed for its first `rounds` rounds. -/
def ddlWorker {σ : Type} (S : Store σ) (rounds : Nat) (w : World σ) : World σ :=
  ddlWorkerLoop S rounds (w.emit (.stdout "DDL worker started\n"))

/-! ## Closed forms and sample inputs -/

/-- The padding written for row `i` of a batch whose buffer has length `m`. -/
def paddingOf (d : Draws) (m i : Nat) : String :=
  hexEncodeToString ((List.range m).map (fun j => d.padBytes i j % 256))

/-- Sample draws: the smallest batch size, a start five below the wrap-around
point, and padding bytes that vary with row and position. -/
def sampleDraws : Draws := { sizeIdx := 0, start := 995, padBytes := fun i j => 16 * i + j }

/-- Sample draws selecting the largest batch size. -/
def sampleDrawsLarge : Draws := { sizeIdx := 3, start := 0, padBytes := fun i j => i + 7 * j }

/-- A store that fails every statement with the error text `msg`. -/
def failingStore (msg : String) : Store Unit :=
  { exec := fun st _ _ => (st, .error msg) }

/-- A store that runs every statement and reports `rows` affected rows. -/
def acceptingStore (rows : Int) : Store Unit :=
  { exec := fun st _ _ => (st, .ok rows) }

/-- A store that answers the statements it receives with the answers listed in
its state, one after the other, and succeeds once the list is used up. -/
def scriptedStore : Store (List (Except String Int)) :=
  { exec := fun st _ _ =>
      match st with
      | [] => ([], .ok 0)
      | r :: rest => (rest, r) }

/-- The empty world over a store without state. -/
def emptyWorld : World Unit := { db := (), trace := [] }

/-- Draws alternating between the smallest and the largest batch size. -/
def alternatingDraws (k : Nat) : Draws :=
  if k % 2 = 0 then sampleDraws else sampleDrawsLarge

/-! ## Substring test -/

/-- The scan of `strings.Contains` finds exactly the contiguous occurrences. -/
theorem containsChars_iff_infix (sub : List Char) :
    ∀ s : List Char, containsChars sub s = true ↔ sub <:+: s := by
  intro s
  induction s with
  | nil =>
    cases sub with
    | nil => simp [containsChars]
    | cons c cs => simp [containsChars]
  | cons c cs ih =>
    simp only [containsChars, Bool.or_eq_true, ih, List.isPrefixOf_iff_prefix,
      List.infix_cons_iff]

/-! ## Arithmetic of the generated keys -/

theorem goMul_ten (v : Int) (h0 : 0 ≤ v) (h1 : v < 1000) : goMul v 10 = v * 10 := by
  unfold goMul wrapInt64
  norm_num
  omega

theorem goRem_goAdd_one (v : Int) (h0 : 0 ≤ v) (h1 : v < 1000) :
    goRem (goAdd v 1) maxValue0 = (v + 1) % 1000 := by
  have h : goAdd v 1 = v + 1 := by
    unfold goAdd wrapInt64
    norm_num
    omega
  rw [h]
  unfold goRem maxValue0
  exact Int.tmod_eq_emod (by omega) (by norm_num)

/-! ## The row loop -/

theorem randRead_len (src : Nat → Nat) (b : ByteSlice) : (randRead src b).len = b.len := rfl

theorem randRead_cap (src : Nat → Nat) (b : ByteSlice) (h : b.len ≤ b.cap) :
    (randRead src b).cap = b.cap := by
  unfold ByteSlice.cap at *
  simp [randRead]
  omega

theorem randRead_bytes (src : Nat → Nat) (b : ByteSlice) :
    (randRead src b).bytes = (List.range b.len).map (fun j => src j % 256) := by
  simp [randRead, ByteSlice.bytes, List.take_append_eq_append_take]

theorem hexEncodeToString_length (bytes : List Nat) :
    (hexEncodeToString bytes).length = 2 * bytes.length := by
  unfold hexEncodeToString
  induction bytes with
  | nil => rfl
  | cons b t ih =>
    simp only [String.length, List.flatMap_cons, List.length_append, List.length_cons,
      List.length_nil] at ih ⊢
    omega

theorem paddingOf_length (d : Draws) (m i : Nat) : (paddingOf d m i).length = 2 * m := by
  simp [paddingOf, hexEncodeToString_length]

theorem setIndex_ok {α : Type} (xs : List α) (i : Nat) (v : α) (h : i < xs.length) :
    setIndex xs i v = .ok (xs.set i v) := by
  simp [setIndex, h]

/-- Invariant of the row loop: started at index `i` with `remaining` rounds to
go on slices long enough and a key in range, it ends without a panic, leaves
the entries below `i` alone and writes the wrap-around run above. -/
theorem fillRows_spec (d : Draws) : ∀ (remaining i : Nat) (st : GenState),
    i + remaining ≤ st.val0Values.length →
    i + remaining ≤ st.val1Values.length →
    i + remaining ≤ st.paddingValues.length →
    st.paddingBuffer.len ≤ st.paddingBuffer.cap →
    0 ≤ st.val0 → st.val0 < 1000 →
    ∃ st2, fillRows d remaining i st = .ok st2 ∧
      st2.val0Values.length = st.val0Values.length ∧
      st2.val1Values.length = st.val1Values.length ∧
      st2.paddingValues.length = st.paddingValues.length ∧
      st2.paddingBuffer.len = st.paddingBuffer.len ∧
      st2.paddingBuffer.cap = st.paddingBuffer.cap ∧
      (∀ j, j < i → st2.val0Values[j]? = st.val0Values[j]? ∧
        st2.val1Values[j]? = st.val1Values[j]? ∧
        st2.paddingValues[j]? = st.paddingValues[j]?) ∧
      (∀ j, j < remaining →
        st2.val0Values[i + j]? = some ((st.val0 + j) % 1000) ∧
        st2.val1Values[i + j]? = some ((st.val0 + j) % 1000 * 10) ∧
        st2.paddingValues[i + j]? = some (paddingOf d st.paddingBuffer.len (i + j))) := by
  intro remaining
  induction remaining with
  | zero =>
    intro i st _ _ _ _ _ _
    exact ⟨st, rfl, rfl, rfl, rfl, rfl, rfl, fun j _ => ⟨rfl, rfl, rfl⟩,
      fun j hj => absurd hj (Nat.not_lt_zero j)⟩
  | succ r ih =>
    intro i st h0 h1 h2 hb hlo hhi
    have e0 := setIndex_ok st.val0Values i st.val0 (by omega)
    have e1 := setIndex_ok st.val1Values i (goMul st.val0 10) (by omega)
    have e2 := setIndex_ok st.paddingValues i
      (hexEncodeToString (randRead (d.padBytes i) st.paddingBuffer).bytes) (by omega)
    obtain ⟨st2, hrun, l0, l1, l2, bl, bc, hlow, hhigh⟩ :=
      ih (i + 1)
        { val0Values := st.val0Values.set i st.val0,
          val1Values := st.val1Values.set i (goMul st.val0 10),
          paddingValues := st.paddingValues.set i
            (hexEncodeToString (randRead (d.padBytes i) st.paddingBuffer).bytes),
          paddingBuffer := randRead (d.padBytes i) st.paddingBuffer,
          val0 := goRem (goAdd st.val0 1) maxValue0 }
        (by simp only [List.length_set]; omega)
        (by simp only [List.length_set]; omega)
        (by simp only [List.length_set]; omega)
        (by rw [randRead_len, randRead_cap _ _ hb]; exact hb)
        (by show 0 ≤ goRem (goAdd st.val0 1) maxValue0
            rw [goRem_goAdd_one _ hlo hhi]; omega)
        (by show goRem (goAdd st.val0 1) maxValue0 < 1000
            rw [goRem_goAdd_one _ hlo hhi]; omega)
    simp only [List.length_set, randRead_len, randRead_cap _ _ hb,
      goRem_goAdd_one _ hlo hhi, goMul_ten _ hlo hhi, randRead_bytes] at l0 l1 l2 bl bc hlow hhigh
    refine ⟨st2, ?_, l0, l1, l2, bl, bc, ?_, ?_⟩
    · simp only [fillRows, e0, e1, e2]
      exact hrun
    · intro j hj
      obtain ⟨a0, a1, a2⟩ := hlow j (by omega)
      have hne : i ≠ j := by omega
      rw [a0, a1, a2]
      simp [List.getElem?_set, hne]
    · intro j hj
      cases j with
      | zero =>
        obtain ⟨a0, a1, a2⟩ := hlow i (by omega)
        have hi0 : i < st.val0Values.length := by omega
        have hi1 : i < st.val1Values.length := by omega
        have hi2 : i < st.paddingValues.length := by omega
        have hmod : (st.val0 + ((0 : Nat) : Int)) % 1000 = st.val0 := by
          simp only [Nat.cast_zero, add_zero]
          exact Int.emod_eq_of_lt hlo hhi
        rw [Nat.add_zero, a0, a1, a2, hmod]
        simp [List.getElem?_set, hi0, hi1, hi2, paddingOf]
      | succ k =>
        obtain ⟨a0, a1, a2⟩ := hhigh k (by omega)
        have hidx : i + (k + 1) = i + 1 + k := by omega
        have hmod : (st.val0 + ((k + 1 : Nat) : Int)) % 1000 =
            ((st.val0 + 1) % 1000 + (k : Int)) % 1000 := by
          push_cast
          omega
        rw [hidx, a0, a1, a2, hmod]
        exact ⟨rfl, rfl, rfl⟩

theorem table_lookup (k : Nat) (hk : k < 4) :
    ∃ n, rowsPerOperationTable[k]? = some n ∧ (n = 10 ∨ n = 50 ∨ n = 100 ∨ n = 200) := by
  interval_cases k
  · exact ⟨10, rfl, by simp⟩
  · exact ⟨50, rfl, by simp⟩
  · exact ⟨100, rfl, by simp⟩
  · exact ⟨200, rfl, by simp⟩

theorem table_lookup_inv (k n : Nat) (hn : rowsPerOperationTable[k]? = some n) :
    n = 10 ∨ n = 50 ∨ n = 100 ∨ n = 200 := by
  have hk : k < 4 := by
    by_contra hge
    have hlen : rowsPerOperationTable.length ≤ k := by
      simp only [rowsPerOperationTable, List.length_cons, List.length_nil]
      omega
    rw [List.getElem?_eq_none hlen] at hn
    exact Option.noConfusion hn
  obtain ⟨m, hm, hcases⟩ := table_lookup k hk
  rw [hm] at hn
  cases hn
  exact hcases

/-- Closed form of a generated batch: with the size `n` looked up in the table,
a start below `maxValue0` and a buffer able to hold `n / 2` bytes, generation
ends without a panic and yields the three slices below. -/
theorem generateBatch_spec (d : Draws) (paddingBuffer : ByteSlice) (n : Nat)
    (hn : rowsPerOperationTable[d.sizeIdx]? = some n) (hs : d.start < 1000)
    (hcap : n / 2 ≤ paddingBuffer.cap) :
    ∃ b, generateBatch d paddingBuffer = .ok b ∧
      b.val0Values = (List.range n).map (fun (i : Nat) => ((d.start : Int) + (i : Int)) % 1000) ∧
      b.val1Values =
        (List.range n).map (fun (i : Nat) => ((d.start : Int) + (i : Int)) % 1000 * 10) ∧
      b.paddingValues = (List.range n).map (paddingOf d (n / 2)) ∧
      b.paddingBuffer.len = n / 2 ∧
      b.paddingBuffer.cap = paddingBuffer.cap := by
  obtain ⟨st2, hrun, l0, l1, l2, bl, bc, _, hhigh⟩ :=
    fillRows_spec d n 0
      { val0Values := List.replicate n 0,
        val1Values := List.replicate n 0,
        paddingValues := List.replicate n "",
        paddingBuffer := { paddingBuffer with len := n / 2 },
        val0 := (d.start : Int) }
      (by simp) (by simp) (by simp) hcap (by simp)
      (by show (d.start : Int) < 1000
          exact_mod_cast hs)
  simp only [List.length_replicate, Nat.zero_add] at l0 l1 l2 hhigh
  refine ⟨st2, ?_, ?_, ?_, ?_, bl, bc⟩
  · simp only [generateBatch, hn, ByteSlice.resliceTo, hcap, if_true]
    exact hrun
  · apply List.ext_getElem?
    intro j
    by_cases hj : j < n
    · rw [(hhigh j hj).1]
      simp [hj]
    · rw [List.getElem?_eq_none (by omega),
        List.getElem?_eq_none (by simp only [List.length_map, List.length_range]; omega)]
  · apply List.ext_getElem?
    intro j
    by_cases hj : j < n
    · rw [(hhigh j hj).2.1]
      simp [hj]
    · rw [List.getElem?_eq_none (by omega),
        List.getElem?_eq_none (by simp only [List.length_map, List.length_range]; omega)]
  · apply List.ext_getElem?
    intro j
    by_cases hj : j < n
    · rw [(hhigh j hj).2.2]
      simp [hj]
    · rw [List.getElem?_eq_none (by omega),
        List.getElem?_eq_none (by simp only [List.length_map, List.length_range]; omega)]

theorem start_lt_of_lt_maxValue0 (s : Nat) (hs : (s : Int) < maxValue0) : s < 1000 := by
  unfold maxValue0 at hs
  exact_mod_cast hs

theorem makeBytes_cap (n : Nat) : (makeBytes n).cap = n := by
  simp [makeBytes, ByteSlice.cap]

theorem half_le_cap (n : Nat) (paddingBuffer : ByteSlice)
    (hn : n = 10 ∨ n = 50 ∨ n = 100 ∨ n = 200)
    (hcap : paddingBuffer.cap = paddingSize / 2) : n / 2 ≤ paddingBuffer.cap := by
  rw [hcap]
  unfold paddingSize
  omega

/-! ## Generated batches -/

/-- C5: in every batch generated by an iteration of `insertDeleteWorker`, for
every batch-size draw and every starting draw, `val1Values[i]` is
`val0Values[i] * 10` at every index `i` (and the 64-bit product does not
wrap). -/
theorem generated_val1_eq_val0_times_ten (d : Draws) (paddingBuffer : ByteSlice)
    (hk : d.sizeIdx < 4) (hs : (d.start : Int) < maxValue0)
    (hcap : paddingBuffer.cap = paddingSize / 2) :
    ∃ b, generateBatch d paddingBuffer = .ok b ∧
      b.val1Values.length = b.val0Values.length ∧
      ∀ i, i < b.val0Values.length →
        ∃ v, b.val0Values[i]? = some v ∧ b.val1Values[i]? = some (v * 10) ∧
          goMul v 10 = v * 10 := by
  obtain ⟨n, hn, hcases⟩ := table_lookup d.sizeIdx hk
  obtain ⟨b, hb, h0, h1, _, _, _⟩ :=
    generateBatch_spec d paddingBuffer n hn (start_lt_of_lt_maxValue0 _ hs)
      (half_le_cap n paddingBuffer hcases hcap)
  refine ⟨b, hb, by simp [h0, h1], ?_⟩
  intro i hi
  have hin : i < n := by simpa [h0] using hi
  refine ⟨((d.start : Int) + (i : Int)) % 1000, by simp [h0, hin], by simp [h1, hin], ?_⟩
  exact goMul_ten _ (by omega) (by omega)

theorem generated_val1_eq_val0_times_ten_witness :
    sampleDraws.sizeIdx < 4 ∧ (sampleDraws.start : Int) < maxValue0 ∧
      (makeBytes (paddingSize / 2)).cap = paddingSize / 2 ∧
      ∃ b, generateBatch sampleDraws (makeBytes (paddingSize / 2)) = .ok b ∧
        b.val1Values.length = b.val0Values.length ∧
        ∀ i, i < b.val0Values.length →
          ∃ v, b.val0Values[i]? = some v ∧ b.val1Values[i]? = some (v * 10) ∧
            goMul v 10 = v * 10 :=
  ⟨by decide, by decide, makeBytes_cap _,
    generated_val1_eq_val0_times_ten sampleDraws (makeBytes (paddingSize / 2))
      (by decide) (by decide) (makeBytes_cap _)⟩

/-- C6: a generated batch of size `n` with starting draw `s` below
`maxValue0` has `val0Values[i] = (s + i) mod maxValue0` for `i = 0..n-1`:
every value lies in `[0, maxValue0)`, each value is its predecessor plus one
modulo `maxValue0`, and no value occurs twice in the batch. -/
theorem generated_val0_run (d : Draws) (paddingBuffer : ByteSlice) (n : Nat)
    (hn : rowsPerOperationTable[d.sizeIdx]? = some n) (hs : (d.start : Int) < maxValue0)
    (hcap : paddingBuffer.cap = paddingSize / 2) :
    ∃ b, generateBatch d paddingBuffer = .ok b ∧
      b.val0Values.length = n ∧
      (∀ i : Nat, i < n →
        b.val0Values[i]? = some (((d.start : Int) + (i : Int)) % maxValue0)) ∧
      (∀ v ∈ b.val0Values, 0 ≤ v ∧ v < maxValue0) ∧
      (∀ i v v2, b.val0Values[i]? = some v → b.val0Values[i + 1]? = some v2 →
        v2 = (v + 1) % maxValue0 ∧ v2 = goRem (goAdd v 1) maxValue0) ∧
      b.val0Values.Nodup := by
  have hcases := table_lookup_inv d.sizeIdx n hn
  obtain ⟨b, hb, h0, _, _, _, _⟩ :=
    generateBatch_spec d paddingBuffer n hn (start_lt_of_lt_maxValue0 _ hs)
      (half_le_cap n paddingBuffer hcases hcap)
  have hget : ∀ i, i < n →
      b.val0Values[i]? = some (((d.start : Int) + (i : Int)) % 1000) := by
    intro i hi
    simp [h0, hi]
  have hlen : b.val0Values.length = n := by simp [h0]
  refine ⟨b, hb, hlen, fun i hi => hget i hi, ?_, ?_, ?_⟩
  · intro v hv
    rw [h0] at hv
    obtain ⟨i, _, rfl⟩ := List.mem_map.1 hv
    unfold maxValue0
    constructor <;> omega
  · intro i v v2 e1 e2
    have hi : i + 1 < n := by
      by_contra hge
      rw [List.getElem?_eq_none (by omega)] at e2
      exact Option.noConfusion e2
    rw [hget i (by omega)] at e1
    rw [hget (i + 1) hi] at e2
    cases e1
    cases e2
    have hstep : ((d.start : Int) + ((i + 1 : Nat) : Int)) % 1000 =
        (((d.start : Int) + (i : Int)) % 1000 + 1) % 1000 := by
      push_cast
      omega
    refine ⟨hstep, ?_⟩
    rw [goRem_goAdd_one _ (by omega) (by omega)]
    exact hstep
  · rw [h0]
    apply List.Nodup.map_on _ (List.nodup_range n)
    intro x hx y hy hxy
    have hx2 := List.mem_range.1 hx
    have hy2 := List.mem_range.1 hy
    omega

theorem generated_val0_run_witness :
    rowsPerOperationTable[sampleDraws.sizeIdx]? = some 10 ∧
      (sampleDraws.start : Int) < maxValue0 ∧
      (makeBytes (paddingSize / 2)).cap = paddingSize / 2 ∧
      ∃ b, generateBatch sampleDraws (makeBytes (paddingSize / 2)) = .ok b ∧
        b.val0Values.length = 10 ∧
        (∀ i : Nat, i < 10 →
          b.val0Values[i]? = some (((sampleDraws.start : Int) + (i : Int)) % maxValue0)) ∧
        (∀ v ∈ b.val0Values, 0 ≤ v ∧ v < maxValue0) ∧
        (∀ i v v2, b.val0Values[i]? = some v → b.val0Values[i + 1]? = some v2 →
          v2 = (v + 1) % maxValue0 ∧ v2 = goRem (goAdd v 1) maxValue0) ∧
        b.val0Values.Nodup :=
  ⟨by decide, by decide, makeBytes_cap _,
    generated_val0_run sampleDraws (makeBytes (paddingSize / 2)) 10
      (by decide) (by decide) (makeBytes_cap _)⟩

/-- C7: for every draw, the three slices of the generated batch have one common
length, and that length is 10, 50, 100 or 200: never zero, never another
number. -/
theorem generated_batch_size (d : Draws) (paddingBuffer : ByteSlice)
    (hk : d.sizeIdx < 4) (hs : (d.start : Int) < maxValue0)
    (hcap : paddingBuffer.cap = paddingSize / 2) :
    ∃ b, generateBatch d paddingBuffer = .ok b ∧
      b.val1Values.length = b.val0Values.length ∧
      b.paddingValues.length = b.val0Values.length ∧
      rowsPerOperationTable[d.sizeIdx]? = some b.val0Values.length ∧
      (b.val0Values.length = 10 ∨ b.val0Values.length = 50 ∨
        b.val0Values.length = 100 ∨ b.val0Values.length = 200) ∧
      b.val0Values.length ≠ 0 := by
  obtain ⟨n, hn, hcases⟩ := table_lookup d.sizeIdx hk
  obtain ⟨b, hb, h0, h1, h2, _, _⟩ :=
    generateBatch_spec d paddingBuffer n hn (start_lt_of_lt_maxValue0 _ hs)
      (half_le_cap n paddingBuffer hcases hcap)
  have hlen : b.val0Values.length = n := by simp [h0]
  refine ⟨b, hb, by simp [h0, h1], by simp [h0, h2], ?_, ?_, ?_⟩
  · rw [hlen]
    exact hn
  · rw [hlen]
    exact hcases
  · rw [hlen]
    omega

theorem generated_batch_size_witness :
    sampleDrawsLarge.sizeIdx < 4 ∧ (sampleDrawsLarge.start : Int) < maxValue0 ∧
      (makeBytes (paddingSize / 2)).cap = paddingSize / 2 ∧
      ∃ b, generateBatch sampleDrawsLarge (makeBytes (paddingSize / 2)) = .ok b ∧
        b.val1Values.length = b.val0Values.length ∧
        b.paddingValues.length = b.val0Values.length ∧
        rowsPerOperationTable[sampleDrawsLarge.sizeIdx]? = some b.val0Values.length ∧
        (b.val0Values.length = 10 ∨ b.val0Values.length = 50 ∨
          b.val0Values.length = 100 ∨ b.val0Values.length = 200) ∧
        b.val0Values.length ≠ 0 :=
  ⟨by decide, by decide, makeBytes_cap _,
    generated_batch_size sampleDrawsLarge (makeBytes (paddingSize / 2))
      (by decide) (by decide) (makeBytes_cap _)⟩

/-- Length of every padding of a generated batch of size `n`: twice the
`n / 2` bytes the buffer was resliced to. -/
theorem generated_padding_length (d : Draws) (paddingBuffer : ByteSlice) (n : Nat)
    (hn : rowsPerOperationTable[d.sizeIdx]? = some n) (hs : (d.start : Int) < maxValue0)
    (hcap : paddingBuffer.cap = paddingSize / 2) :
    ∃ b, generateBatch d paddingBuffer = .ok b ∧
      b.paddingValues.length = n ∧
      (∀ i : Nat, i < n → b.paddingValues[i]? = some (paddingOf d (n / 2) i)) ∧
      ∀ p ∈ b.paddingValues, p.length = 2 * (n / 2) := by
  have hcases := table_lookup_inv d.sizeIdx n hn
  obtain ⟨b, hb, _, _, h2, _, _⟩ :=
    generateBatch_spec d paddingBuffer n hn (start_lt_of_lt_maxValue0 _ hs)
      (half_le_cap n paddingBuffer hcases hcap)
  refine ⟨b, hb, by simp [h2], fun i hi => by simp [h2, hi], ?_⟩
  intro p hp
  rw [h2] at hp
  obtain ⟨i, _, rfl⟩ := List.mem_map.1 hp
  exact paddingOf_length d (n / 2) i

/-- C8: at the draw `rand.Intn(4) = 0` the batch has ten rows and every padding
has 10 characters (the first is `0001020304`), at the draw `3` it has two
hundred rows and every padding has 200 characters; neither is the configured
`paddingSize` of 256, and the length follows the batch size. -/
theorem padding_length_follows_batch_size :
    (∃ b, generateBatch sampleDraws (makeBytes (paddingSize / 2)) = .ok b ∧
      b.paddingValues.length = 10 ∧
      b.paddingValues[0]? = some "0001020304" ∧
      ∀ p ∈ b.paddingValues, p.length = 10 ∧ p.length ≠ paddingSize) ∧
    (∃ b, generateBatch sampleDrawsLarge (makeBytes (paddingSize / 2)) = .ok b ∧
      b.paddingValues.length = 200 ∧
      ∀ p ∈ b.paddingValues, p.length = 200 ∧ p.length ≠ paddingSize) := by
  constructor
  · obtain ⟨b, hb, hl, hget, hlen⟩ :=
      generated_padding_length sampleDraws (makeBytes (paddingSize / 2)) 10
        (by decide) (by decide) (makeBytes_cap _)
    refine ⟨b, hb, hl, ?_, ?_⟩
    · rw [hget 0 (by omega)]
      decide
    · intro p hp
      have := hlen p hp
      unfold paddingSize
      omega
  · obtain ⟨b, hb, hl, _, hlen⟩ :=
      generated_padding_length sampleDrawsLarge (makeBytes (paddingSize / 2)) 200
        (by decide) (by decide) (makeBytes_cap _)
    refine ⟨b, hb, hl, ?_⟩
    intro p hp
    have := hlen p hp
    unfold paddingSize
    omega

/-! ## Statements of a trace -/

theorem execsOf_append (t u : List Event) : execsOf (t ++ u) = execsOf t ++ execsOf u := by
  induction t with
  | nil => rfl
  | cons e t ih => cases e <;> simp [execsOf, ih]

theorem execsOf_emit_exec {σ : Type} (w : World σ) (q : String) (a : List Arg) :
    execsOf (w.emit (.exec q a)).trace = execsOf w.trace ++ [(q, a)] := by
  simp [World.emit, execsOf_append, execsOf]

theorem execsOf_emit_stdout {σ : Type} (w : World σ) (t : String) :
    execsOf (w.emit (.stdout t)).trace = execsOf w.trace := by
  simp [World.emit, execsOf_append, execsOf]

theorem execsOf_emit_logged {σ : Type} (w : World σ) (t : String) :
    execsOf (w.emit (.logged t)).trace = execsOf w.trace := by
  simp [World.emit, execsOf_append, execsOf]

theorem execsOf_emit_sleep {σ : Type} (w : World σ) (ms : Nat) :
    execsOf (w.emit (.sleep ms)).trace = execsOf w.trace := by
  simp [World.emit, execsOf_append, execsOf]

theorem execsOf_dbExec {σ : Type} (S : Store σ) (w : World σ) (q : String) (a : List Arg) :
    execsOf (dbExec S w q a).1.trace = execsOf w.trace ++ [(q, a)] := by
  simp [dbExec, execsOf_append, execsOf]

theorem dbExec_snd {σ : Type} (S : Store σ) (w : World σ) (q : String) (a : List Arg) :
    (dbExec S w q a).2 = (S.exec w.db q a).2 := rfl

/-! ## `insertRows` and `deleteRows` -/

theorem insertRowsArgs_ok (val1Values : List Int) (paddingValues : List String) :
    ∀ (val0Values : List Int) (i : Nat) (acc : List Arg),
      i + val0Values.length ≤ val1Values.length →
      i + val0Values.length ≤ paddingValues.length →
      ∃ args, insertRowsArgs val1Values paddingValues val0Values i acc = .ok args ∧
        args.length = acc.length + 3 * val0Values.length := by
  intro val0Values
  induction val0Values with
  | nil =>
    intro i acc _ _
    exact ⟨acc, rfl, by simp⟩
  | cons v rest ih =>
    intro i acc h1 h2
    simp only [List.length_cons] at h1 h2
    have hi1 : i < val1Values.length := by omega
    have hi2 : i < paddingValues.length := by omega
    obtain ⟨args, hargs, hlen⟩ :=
      ih (i + 1) (acc ++ [Arg.int v, Arg.int val1Values[i], Arg.str paddingValues[i]])
        (by omega) (by omega)
    refine ⟨args, ?_, ?_⟩
    · simp only [insertRowsArgs, List.getElem?_eq_getElem hi1, List.getElem?_eq_getElem hi2]
      exact hargs
    · simp only [List.length_append, List.length_cons, List.length_nil] at hlen
      simp only [List.length_cons]
      omega

/-- What `insertRows` returns and issues once its arguments are built: one
INSERT, then `nil` on success or on a "Duplicate entry" error, the wrapped
error otherwise. -/
theorem insertRows_result {σ : Type} (S : Store σ) (val0Values val1Values : List Int)
    (paddingValues : List String) (workerID : Int) (w : World σ) (args : List Arg)
    (hargs : insertRowsArgs val1Values paddingValues val0Values 0 [] = .ok args) :
    (insertRows S val0Values val1Values paddingValues workerID w).2 =
      .ok (match (S.exec w.db (insertQuery val0Values.length) args).2 with
        | .ok _ => none
        | .error msg =>
          if stringsContains msg "Duplicate entry" then none
          else some ("insert failed: " ++ msg)) ∧
    execsOf (insertRows S val0Values val1Values paddingValues workerID w).1.trace =
      execsOf w.trace ++ [(insertQuery val0Values.length, args)] := by
  simp only [insertRows, hargs, dbExec_snd]
  cases h : (S.exec w.db (insertQuery val0Values.length) args).2 with
  | error msg =>
    by_cases hd : stringsContains msg "Duplicate entry" = true
    · simp [hd, execsOf_emit_stdout, execsOf_dbExec]
    · simp [hd, execsOf_dbExec]
  | ok n => simp [execsOf_emit_stdout, execsOf_dbExec]

/-- What `deleteRows` returns and issues for a non-empty key list: one DELETE
carrying the keys in order, then `nil` on success or on an error holding both
"public column" and "has changed", the wrapped error otherwise. -/
theorem deleteRows_result {σ : Type} (S : Store σ) (val0Values : List Int) (workerID : Int)
    (w : World σ) (hne : val0Values ≠ []) :
    (deleteRows S val0Values workerID w).2 =
      (match (S.exec w.db (deleteQuery val0Values.length) (val0Values.map Arg.int)).2 with
        | .ok _ => none
        | .error msg =>
          if stringsContains msg "public column" && stringsContains msg "has changed" then none
          else some ("delete failed: " ++ msg)) ∧
    execsOf (deleteRows S val0Values workerID w).1.trace =
      execsOf w.trace ++ [(deleteQuery val0Values.length, val0Values.map Arg.int)] := by
  have hlen : val0Values.length ≠ 0 := by
    intro h
    exact hne (List.length_eq_zero.1 h)
  simp only [deleteRows, hlen, if_false, dbExec_snd]
  cases h : (S.exec w.db (deleteQuery val0Values.length) (val0Values.map Arg.int)).2 with
  | error msg =>
    by_cases hd :
        (stringsContains msg "public column" && stringsContains msg "has changed") = true
    · simp [hd, execsOf_emit_stdout, execsOf_dbExec]
    · simp [hd, execsOf_dbExec]
  | ok n => simp [execsOf_emit_stdout, execsOf_dbExec]

/-! ## The two halves of a round -/

/-- The insert half never stops the round once the arguments are built: it
returns normally whatever the store answered, having issued the one INSERT. -/
theorem insertStep_result {σ : Type} (S : Store σ) (workerID : Int) (b : GenState)
    (w : World σ) (args : List Arg)
    (hargs : insertRowsArgs b.val1Values b.paddingValues b.val0Values 0 [] = .ok args) :
    (insertStep S workerID b w).2 = .ok () ∧
    execsOf (insertStep S workerID b w).1.trace =
      execsOf w.trace ++ [(insertQuery b.val0Values.length, args)] := by
  obtain ⟨hret, htrace⟩ :=
    insertRows_result S b.val0Values b.val1Values b.paddingValues workerID w args hargs
  unfold insertStep
  rw [hret]
  cases (S.exec w.db (insertQuery b.val0Values.length) args).2 with
  | error msg =>
    by_cases hd : stringsContains msg "Duplicate entry" = true
    · simp [hd, execsOf_emit_sleep, htrace]
    · simp [hd, execsOf_emit_sleep, execsOf_emit_logged, htrace]
  | ok n => simp [execsOf_emit_sleep, htrace]

/-- The delete half issues the one DELETE and then follows what `deleteRows`
returned: the panic of `log.Panicf` on an error, the second sleep on `nil`. -/
theorem deleteStep_result {σ : Type} (S : Store σ) (workerID : Int) (b : GenState)
    (w : World σ) (hne : b.val0Values ≠ []) :
    execsOf (deleteStep S workerID b w).1.trace =
      execsOf w.trace ++ [(deleteQuery b.val0Values.length, b.val0Values.map Arg.int)] ∧
    (deleteStep S workerID b w).2 =
      (match (deleteRows S b.val0Values workerID w).2 with
        | some e =>
          .error (.logPanicf ("Worker " ++ toString workerID ++ " - Delete error: " ++ e))
        | none => .ok b.paddingBuffer) := by
  obtain ⟨_, htrace⟩ := deleteRows_result S b.val0Values workerID w hne
  unfold deleteStep
  cases (deleteRows S b.val0Values workerID w).2 with
  | some e => simp [execsOf_emit_logged, htrace]
  | none => simp [execsOf_emit_sleep, htrace]

/-- A round whose draws respect the contract of `rand.Intn` and whose buffer
has the capacity given by `make` generates its batch without a panic, gets
past the insert, and is decided by its delete half. -/
theorem insertDeleteWorkerIter_eq {σ : Type} (S : Store σ) (workerID : Int) (d : Draws)
    (paddingBuffer : ByteSlice) (w : World σ)
    (hk : d.sizeIdx < 4) (hs : (d.start : Int) < maxValue0)
    (hcap : paddingBuffer.cap = paddingSize / 2) :
    ∃ b args, generateBatch d paddingBuffer = .ok b ∧
      b.val0Values ≠ [] ∧
      b.paddingBuffer.cap = paddingSize / 2 ∧
      insertRowsArgs b.val1Values b.paddingValues b.val0Values 0 [] = .ok args ∧
      (insertStep S workerID b w).2 = .ok () ∧
      insertDeleteWorkerIter S workerID d paddingBuffer w =
        deleteStep S workerID b (insertStep S workerID b w).1 := by
  obtain ⟨n, hn, hcases⟩ := table_lookup d.sizeIdx hk
  obtain ⟨b, hb, h0, h1, h2, _, hc⟩ :=
    generateBatch_spec d paddingBuffer n hn (start_lt_of_lt_maxValue0 _ hs)
      (half_le_cap n paddingBuffer hcases hcap)
  have hl0 : b.val0Values.length = n := by simp [h0]
  have hl1 : b.val1Values.length = n := by simp [h1]
  have hl2 : b.paddingValues.length = n := by simp [h2]
  obtain ⟨args, hargs, _⟩ :=
    insertRowsArgs_ok b.val1Values b.paddingValues b.val0Values 0 [] (by omega) (by omega)
  have hins := (insertStep_result S workerID b w args hargs).1
  refine ⟨b, args, hb, ?_, by rw [hc, hcap], hargs, hins, ?_⟩
  · intro hnil
    rw [hnil] at hl0
    simp only [List.length_nil] at hl0
    omega
  · simp only [insertDeleteWorkerIter, hb, hins]

theorem insertDeleteWorkerLoop_succ_error {σ : Type} (S : Store σ) (workerID : Int)
    (draws : Nat → Draws) (rounds k : Nat) (paddingBuffer : ByteSlice) (w : World σ)
    (p : Panic)
    (h : (insertDeleteWorkerIter S workerID (draws k) paddingBuffer w).2 = .error p) :
    insertDeleteWorkerLoop S workerID draws (rounds + 1) k paddingBuffer w =
      insertDeleteWorkerIter S workerID (draws k) paddingBuffer w := by
  simp only [insertDeleteWorkerLoop, h]
  exact Prod.ext rfl h.symm

theorem insertDeleteWorkerLoop_succ_ok {σ : Type} (S : Store σ) (workerID : Int)
    (draws : Nat → Draws) (rounds k : Nat) (paddingBuffer : ByteSlice) (w : World σ)
    (buf : ByteSlice)
    (h : (insertDeleteWorkerIter S workerID (draws k) paddingBuffer w).2 = .ok buf) :
    insertDeleteWorkerLoop S workerID draws (rounds + 1) k paddingBuffer w =
      insertDeleteWorkerLoop S workerID draws rounds (k + 1) buf
        (insertDeleteWorkerIter S workerID (draws k) paddingBuffer w).1 := by
  simp only [insertDeleteWorkerLoop, h]

/-! ## Error classification -/

/-- C3: the duplicate-key signature is benign for inserts only.  Let `msg`
contain "Duplicate entry" and not contain both "public column" and
"has changed".  Whenever a store fails the INSERT with `msg`, `insertRows`
swallows it and returns `nil`, whatever that store does to any other statement.
Whenever a store fails the DELETE of a non-empty batch with `msg`, `deleteRows`
returns the non-nil error "delete failed: ...", whatever that store does to
any other statement. -/
theorem duplicate_entry_benign_only_for_insert (msg : String)
    (hdup : stringsContains msg "Duplicate entry" = true)
    (hshape :
      (stringsContains msg "public column" && stringsContains msg "has changed") = false) :
    (∀ (σ : Type) (S : Store σ) (val0Values val1Values : List Int)
        (paddingValues : List String) (workerID : Int) (w : World σ),
      val0Values.length ≤ val1Values.length →
      val0Values.length ≤ paddingValues.length →
      ∃ args, insertRowsArgs val1Values paddingValues val0Values 0 [] = .ok args ∧
        ((S.exec w.db (insertQuery val0Values.length) args).2 = .error msg →
          (insertRows S val0Values val1Values paddingValues workerID w).2 = .ok none)) ∧
    (∀ (σ : Type) (S : Store σ) (val0Values : List Int) (workerID : Int) (w : World σ),
      val0Values ≠ [] →
      (S.exec w.db (deleteQuery val0Values.length) (val0Values.map Arg.int)).2 = .error msg →
      (deleteRows S val0Values workerID w).2 = some ("delete failed: " ++ msg) ∧
        (deleteRows S val0Values workerID w).2 ≠ none) := by
  constructor
  · intro σ S val0Values val1Values paddingValues workerID w hl1 hl2
    obtain ⟨args, hargs, _⟩ :=
      insertRowsArgs_ok val1Values paddingValues val0Values 0 [] (by omega) (by omega)
    refine ⟨args, hargs, ?_⟩
    intro hi
    have h1 := (insertRows_result S val0Values val1Values paddingValues workerID w args hargs).1
    rw [hi] at h1
    simp only [hdup, if_true] at h1
    exact h1
  · intro σ S val0Values workerID w hne hd
    have h2 := (deleteRows_result S val0Values workerID w hne).1
    rw [hd] at h2
    simp only [hshape] at h2
    refine ⟨h2, ?_⟩
    rw [h2]
    exact Option.some_ne_none _

theorem duplicate_entry_benign_only_for_insert_witness :
    stringsContains "Error 1062 (23000): Duplicate entry 7 for key PRIMARY"
        "Duplicate entry" = true ∧
      (stringsContains "Error 1062 (23000): Duplicate entry 7 for key PRIMARY" "public column" &&
        stringsContains "Error 1062 (23000): Duplicate entry 7 for key PRIMARY"
          "has changed") = false ∧
      (insertRows scriptedStore [7, 8] [70, 80] ["ab", "cd"] 3
        { db := [.error "Error 1062 (23000): Duplicate entry 7 for key PRIMARY", .ok 2],
          trace := [] }).2 = .ok none ∧
      (deleteRows scriptedStore [7, 8] 3
        { db := [.error "Error 1062 (23000): Duplicate entry 7 for key PRIMARY"],
          trace := [] }).2 =
          some ("delete failed: " ++ "Error 1062 (23000): Duplicate entry 7 for key PRIMARY") := by
  obtain ⟨hins, hdel⟩ :=
    duplicate_entry_benign_only_for_insert
      "Error 1062 (23000): Duplicate entry 7 for key PRIMARY" (by decide) (by decide)
  obtain ⟨args, _, hnil⟩ :=
    hins _ scriptedStore [7, 8] [70, 80] ["ab", "cd"] 3
      { db := [.error "Error 1062 (23000): Duplicate entry 7 for key PRIMARY", .ok 2],
        trace := [] }
      (by decide) (by decide)
  exact ⟨by decide, by decide, hnil rfl,
    (hdel _ scriptedStore [7, 8] 3
      { db := [.error "Error 1062 (23000): Duplicate entry 7 for key PRIMARY"], trace := [] }
      (by decide) rfl).1⟩

/-- C4: the column-has-changed signature is benign for deletes only.  Let `msg`
contain both "public column" and "has changed" and not contain
"Duplicate entry".  Whenever a store fails the DELETE of a non-empty batch
with `msg`, `deleteRows` swallows it and returns `nil`, whatever that store
does to any other statement.  Whenever a store fails the INSERT with `msg`,
`insertRows` does not swallow it and returns the non-nil error
"insert failed: ...", whatever that store does to any other statement. -/
theorem column_changed_benign_only_for_delete (msg : String)
    (hshape :
      (stringsContains msg "public column" && stringsContains msg "has changed") = true)
    (hdup : stringsContains msg "Duplicate entry" = false) :
    (∀ (σ : Type) (S : Store σ) (val0Values : List Int) (workerID : Int) (w : World σ),
      val0Values ≠ [] →
      (S.exec w.db (deleteQuery val0Values.length) (val0Values.map Arg.int)).2 = .error msg →
      (deleteRows S val0Values workerID w).2 = none) ∧
    (∀ (σ : Type) (S : Store σ) (val0Values val1Values : List Int)
        (paddingValues : List String) (workerID : Int) (w : World σ),
      val0Values.length ≤ val1Values.length →
      val0Values.length ≤ paddingValues.length →
      ∃ args, insertRowsArgs val1Values paddingValues val0Values 0 [] = .ok args ∧
        ((S.exec w.db (insertQuery val0Values.length) args).2 = .error msg →
          (insertRows S val0Values val1Values paddingValues workerID w).2 =
            .ok (some ("insert failed: " ++ msg)) ∧
          (insertRows S val0Values val1Values paddingValues workerID w).2 ≠ .ok none)) := by
  constructor
  · intro σ S val0Values workerID w hne hd
    have h2 := (deleteRows_result S val0Values workerID w hne).1
    rw [hd] at h2
    simp only [hshape, if_true] at h2
    exact h2
  · intro σ S val0Values val1Values paddingValues workerID w hl1 hl2
    obtain ⟨args, hargs, _⟩ :=
      insertRowsArgs_ok val1Values paddingValues val0Values 0 [] (by omega) (by omega)
    refine ⟨args, hargs, ?_⟩
    intro hi
    have h1 := (insertRows_result S val0Values val1Values paddingValues workerID w args hargs).1
    rw [hi] at h1
    simp only [hdup] at h1
    refine ⟨h1, ?_⟩
    rw [h1]
    intro hcontra
    cases hcontra

theorem column_changed_benign_only_for_delete_witness :
    (stringsContains "Error 8028 (HY000): public column val0 has changed" "public column" &&
        stringsContains "Error 8028 (HY000): public column val0 has changed" "has changed") =
        true ∧
      stringsContains "Error 8028 (HY000): public column val0 has changed" "Duplicate entry" =
        false ∧
      (deleteRows scriptedStore [7, 8] 3
        { db := [.error "Error 8028 (HY000): public column val0 has changed"],
          trace := [] }).2 = none ∧
      (insertRows scriptedStore [7, 8] [70, 80] ["ab", "cd"] 3
        { db := [.error "Error 8028 (HY000): public column val0 has changed", .ok 2],
          trace := [] }).2 =
          .ok (some ("insert failed: " ++
            "Error 8028 (HY000): public column val0 has changed")) := by
  obtain ⟨hdel, hins⟩ :=
    column_changed_benign_only_for_delete
      "Error 8028 (HY000): public column val0 has changed" (by decide) (by decide)
  obtain ⟨args, _, hkeep⟩ :=
    hins _ scriptedStore [7, 8] [70, 80] ["ab", "cd"] 3
      { db := [.error "Error 8028 (HY000): public column val0 has changed", .ok 2],
        trace := [] }
      (by decide) (by decide)
  exact ⟨by decide, by decide,
    hdel _ scriptedStore [7, 8] 3
      { db := [.error "Error 8028 (HY000): public column val0 has changed"], trace := [] }
      (by decide) rfl,
    (hkeep rfl).1⟩

/-! ## One round of `insertDeleteWorker` -/

/-- C2: whatever the store answers to the bulk INSERT of a round (success, an
error containing "Duplicate entry", or any other error), the worker gets past
the insert without a panic and the round issues exactly two statements: the
INSERT and then one DELETE whose positional arguments are the `val0` values of
the batch just generated, in the same order. -/
theorem insert_outcome_never_stops_delete {σ : Type} (S : Store σ) (workerID : Int)
    (d : Draws) (paddingBuffer : ByteSlice) (w : World σ)
    (hk : d.sizeIdx < 4) (hs : (d.start : Int) < maxValue0)
    (hcap : paddingBuffer.cap = paddingSize / 2) :
    ∃ b args, generateBatch d paddingBuffer = .ok b ∧
      insertRowsArgs b.val1Values b.paddingValues b.val0Values 0 [] = .ok args ∧
      (insertRows S b.val0Values b.val1Values b.paddingValues workerID w).2 =
        .ok (match (S.exec w.db (insertQuery b.val0Values.length) args).2 with
          | .ok _ => none
          | .error msg =>
            if stringsContains msg "Duplicate entry" then none
            else some ("insert failed: " ++ msg)) ∧
      (insertStep S workerID b w).2 = .ok () ∧
      execsOf (insertStep S workerID b w).1.trace =
        execsOf w.trace ++ [(insertQuery b.val0Values.length, args)] ∧
      execsOf (insertDeleteWorkerIter S workerID d paddingBuffer w).1.trace =
        execsOf w.trace ++
          [(insertQuery b.val0Values.length, args),
           (deleteQuery b.val0Values.length, b.val0Values.map Arg.int)] := by
  obtain ⟨b, args, hb, hne, _, hargs, hins, hiter⟩ :=
    insertDeleteWorkerIter_eq S workerID d paddingBuffer w hk hs hcap
  have hrows :=
    (insertRows_result S b.val0Values b.val1Values b.paddingValues workerID w args hargs).1
  have htrace := (insertStep_result S workerID b w args hargs).2
  refine ⟨b, args, hb, hargs, hrows, hins, htrace, ?_⟩
  rw [hiter, (deleteStep_result S workerID b _ hne).1, htrace]
  simp

theorem insert_outcome_never_stops_delete_witness :
    sampleDraws.sizeIdx < 4 ∧ (sampleDraws.start : Int) < maxValue0 ∧
      (makeBytes (paddingSize / 2)).cap = paddingSize / 2 ∧
      ∃ b args, generateBatch sampleDraws (makeBytes (paddingSize / 2)) = .ok b ∧
        insertRowsArgs b.val1Values b.paddingValues b.val0Values 0 [] = .ok args ∧
        (insertRows (failingStore "Error 1105 (HY000): other error") b.val0Values
            b.val1Values b.paddingValues 3 emptyWorld).2 =
          .ok (match ((failingStore "Error 1105 (HY000): other error").exec emptyWorld.db
              (insertQuery b.val0Values.length) args).2 with
            | .ok _ => none
            | .error msg =>
              if stringsContains msg "Duplicate entry" then none
              else some ("insert failed: " ++ msg)) ∧
        (insertStep (failingStore "Error 1105 (HY000): other error") 3 b emptyWorld).2 =
          .ok () ∧
        execsOf (insertStep (failingStore "Error 1105 (HY000): other error") 3 b
            emptyWorld).1.trace =
          execsOf emptyWorld.trace ++ [(insertQuery b.val0Values.length, args)] ∧
        execsOf (insertDeleteWorkerIter (failingStore "Error 1105 (HY000): other error") 3
            sampleDraws (makeBytes (paddingSize / 2)) emptyWorld).1.trace =
          execsOf emptyWorld.trace ++
            [(insertQuery b.val0Values.length, args),
             (deleteQuery b.val0Values.length, b.val0Values.map Arg.int)] :=
  ⟨by decide, by decide, makeBytes_cap _,
    insert_outcome_never_stops_delete (failingStore "Error 1105 (HY000): other error") 3
      sampleDraws (makeBytes (paddingSize / 2)) emptyWorld (by decide) (by decide)
      (makeBytes_cap _)⟩

/-- C1: `deleteRows` on a non-empty batch returns the non-nil error
"delete failed: ..." when the store fails the DELETE with a message that does
not contain both "public column" and "has changed", and returns `nil` when the
DELETE succeeds or fails with a message containing both.  In a round of
`insertDeleteWorker` the first case ends in the panic of `log.Panicf` with the
DELETE as the last statement issued, however many further rounds are observed;
in the other cases the round returns normally and the loop goes on with the
next round. -/
theorem delete_error_decides_worker {σ : Type} (S : Store σ) (workerID : Int)
    (val0Values : List Int) (wd : World σ) (draws : Nat → Draws) (k rounds : Nat)
    (paddingBuffer : ByteSlice) (w : World σ)
    (hne : val0Values ≠ [])
    (hk : (draws k).sizeIdx < 4) (hs : ((draws k).start : Int) < maxValue0)
    (hcap : paddingBuffer.cap = paddingSize / 2) :
    (∀ msg, (S.exec wd.db (deleteQuery val0Values.length) (val0Values.map Arg.int)).2 =
        .error msg →
      (stringsContains msg "public column" && stringsContains msg "has changed") = false →
      (deleteRows S val0Values workerID wd).2 = some ("delete failed: " ++ msg)) ∧
    (∀ msg, (S.exec wd.db (deleteQuery val0Values.length) (val0Values.map Arg.int)).2 =
        .error msg →
      (stringsContains msg "public column" && stringsContains msg "has changed") = true →
      (deleteRows S val0Values workerID wd).2 = none) ∧
    (∀ n, (S.exec wd.db (deleteQuery val0Values.length) (val0Values.map Arg.int)).2 = .ok n →
      (deleteRows S val0Values workerID wd).2 = none) ∧
    ∃ b w3, generateBatch (draws k) paddingBuffer = .ok b ∧
      b.val0Values ≠ [] ∧
      insertStep S workerID b w = (w3, .ok ()) ∧
      (∀ msg,
        (S.exec w3.db (deleteQuery b.val0Values.length) (b.val0Values.map Arg.int)).2 =
          .error msg →
        (stringsContains msg "public column" && stringsContains msg "has changed") = false →
        (insertDeleteWorkerIter S workerID (draws k) paddingBuffer w).2 =
          .error (.logPanicf
            ("Worker " ++ toString workerID ++ " - Delete error: " ++
              ("delete failed: " ++ msg))) ∧
        execsOf (insertDeleteWorkerIter S workerID (draws k) paddingBuffer w).1.trace =
          execsOf w3.trace ++
            [(deleteQuery b.val0Values.length, b.val0Values.map Arg.int)] ∧
        insertDeleteWorkerLoop S workerID draws (rounds + 1) k paddingBuffer w =
          insertDeleteWorkerIter S workerID (draws k) paddingBuffer w) ∧
      (∀ r,
        (S.exec w3.db (deleteQuery b.val0Values.length) (b.val0Values.map Arg.int)).2 = r →
        ((∃ n, r = .ok n) ∨ ∃ msg, r = .error msg ∧
          (stringsContains msg "public column" && stringsContains msg "has changed") = true) →
        (insertDeleteWorkerIter S workerID (draws k) paddingBuffer w).2 =
          .ok b.paddingBuffer ∧
        insertDeleteWorkerLoop S workerID draws (rounds + 1) k paddingBuffer w =
          insertDeleteWorkerLoop S workerID draws rounds (k + 1) b.paddingBuffer
            (insertDeleteWorkerIter S workerID (draws k) paddingBuffer w).1) := by
  have hdel := (deleteRows_result S val0Values workerID wd hne).1
  refine ⟨?_, ?_, ?_, ?_⟩
  · intro msg hresp hnot
    rw [hdel, hresp]
    simp only [hnot]
    rfl
  · intro msg hresp hboth
    rw [hdel, hresp]
    simp only [hboth, if_true]
  · intro n hresp
    rw [hdel, hresp]
  · obtain ⟨b, args, hb, hbne, _, _, hins, hiter⟩ :=
      insertDeleteWorkerIter_eq S workerID (draws k) paddingBuffer w hk hs hcap
    obtain ⟨htrace, hret⟩ := deleteStep_result S workerID b (insertStep S workerID b w).1 hbne
    have hdel3 := (deleteRows_result S b.val0Values workerID (insertStep S workerID b w).1 hbne).1
    refine ⟨b, (insertStep S workerID b w).1, hb, hbne, Prod.ext rfl hins, ?_, ?_⟩
    · intro msg hresp hnot
      rw [hresp] at hdel3
      simp only [hnot] at hdel3
      have hpanic : (insertDeleteWorkerIter S workerID (draws k) paddingBuffer w).2 =
          .error (.logPanicf
            ("Worker " ++ toString workerID ++ " - Delete error: " ++
              ("delete failed: " ++ msg))) := by
        rw [hiter, hret, hdel3]
        rfl
      refine ⟨hpanic, ?_, insertDeleteWorkerLoop_succ_error S workerID draws rounds k
        paddingBuffer w _ hpanic⟩
      rw [hiter, htrace]
    · intro r hresp hbenign
      have hnone : (deleteRows S b.val0Values workerID (insertStep S workerID b w).1).2 =
          none := by
        rw [hdel3, hresp]
        rcases hbenign with ⟨n, rfl⟩ | ⟨msg, rfl, hboth⟩
        · rfl
        · simp only [hboth, if_true]
      have hok : (insertDeleteWorkerIter S workerID (draws k) paddingBuffer w).2 =
          .ok b.paddingBuffer := by
        rw [hiter, hret, hnone]
      exact ⟨hok, insertDeleteWorkerLoop_succ_ok S workerID draws rounds k paddingBuffer w _ hok⟩

theorem delete_error_decides_worker_witness :
    ([7, 8] : List Int) ≠ [] ∧ (alternatingDraws 0).sizeIdx < 4 ∧
      ((alternatingDraws 0).start : Int) < maxValue0 ∧
      (makeBytes (paddingSize / 2)).cap = paddingSize / 2 ∧
      (deleteRows (failingStore "Error 1105 (HY000): connection reset") [7, 8] 3
        emptyWorld).2 = some ("delete failed: " ++ "Error 1105 (HY000): connection reset") ∧
      (insertDeleteWorkerLoop (failingStore "Error 1105 (HY000): connection reset") 3
        alternatingDraws (4 + 1) 0 (makeBytes (paddingSize / 2)) emptyWorld).2 =
          .error (.logPanicf
            ("Worker " ++ toString (3 : Int) ++ " - Delete error: " ++
              ("delete failed: " ++ "Error 1105 (HY000): connection reset"))) ∧
      (deleteRows (failingStore "Error 8028 (HY000): public column val0 has changed") [7, 8] 3
        emptyWorld).2 = none ∧
      ∃ buf, (insertDeleteWorkerLoop
        (failingStore "Error 8028 (HY000): public column val0 has changed") 3
        alternatingDraws (0 + 1) 0 (makeBytes (paddingSize / 2)) emptyWorld).2 = .ok buf := by
  obtain ⟨hfail, _, _, b, w3, _, _, _, hfatal, _⟩ :=
    delete_error_decides_worker (failingStore "Error 1105 (HY000): connection reset") 3
      [7, 8] emptyWorld alternatingDraws 0 4 (makeBytes (paddingSize / 2)) emptyWorld
      (by decide) (by decide) (by decide) (makeBytes_cap _)
  obtain ⟨hpanic, _, hloop⟩ := hfatal "Error 1105 (HY000): connection reset" rfl (by decide)
  obtain ⟨_, hswallow, _, b2, w4, _, _, _, _, hbenign⟩ :=
    delete_error_decides_worker
      (failingStore "Error 8028 (HY000): public column val0 has changed") 3
      [7, 8] emptyWorld alternatingDraws 0 0 (makeBytes (paddingSize / 2)) emptyWorld
      (by decide) (by decide) (by decide) (makeBytes_cap _)
  obtain ⟨_, hnext⟩ := hbenign _ rfl
    (Or.inr ⟨"Error 8028 (HY000): public column val0 has changed", rfl, by decide⟩)
  refine ⟨by decide, by decide, by decide, makeBytes_cap _,
    hfail "Error 1105 (HY000): connection reset" rfl (by decide), ?_,
    hswallow "Error 8028 (HY000): public column val0 has changed" rfl (by decide),
    b2.paddingBuffer, ?_⟩
  · rw [hloop]
    exact hpanic
  · rw [hnext]
    rfl

/-! ## `ddlWorker` -/

theorem execsOf_ddlModify {σ : Type} (S : Store σ) (column ty : String) (w : World σ) :
    execsOf (ddlModify S column ty w).trace =
      execsOf w.trace ++ [(alterQuery column ty, [])] := by
  unfold ddlModify
  simp only []
  split
  · simp [execsOf_emit_logged, execsOf_dbExec, execsOf_emit_stdout]
  · simp [execsOf_dbExec, execsOf_emit_stdout]

theorem execsOf_ddlWorkerIter {σ : Type} (S : Store σ) (w : World σ) :
    execsOf (ddlWorkerIter S w).trace =
      execsOf w.trace ++
        [(alterQuery "val0" "bigint", []), (alterQuery "val0" "int", [])] := by
  simp [ddlWorkerIter, execsOf_ddlModify, execsOf_emit_sleep]

theorem execsOf_ddlWorkerLoop {σ : Type} (S : Store σ) : ∀ (rounds : Nat) (w : World σ),
    execsOf (ddlWorkerLoop S rounds w).trace =
      execsOf w.trace ++ (List.range rounds).flatMap
        (fun _ => [(alterQuery "val0" "bigint", []), (alterQuery "val0" "int", [])]) := by
  intro rounds
  induction rounds with
  | zero =>
    intro w
    simp [ddlWorkerLoop]
  | succ r ih =>
    intro w
    simp only [ddlWorkerLoop, ih, execsOf_ddlWorkerIter, List.range_succ_eq_map,
      List.flatMap_cons, List.flatMap_map, List.append_assoc]

/-- C9: whatever the store answers to either ALTER, one round of `ddlWorker`
issues exactly two statements, first the ALTER giving `val0` the type bigint
and then the ALTER giving it back the type int; the round always returns and
the loop goes on with the next round, so `rounds` rounds issue `rounds` such
pairs. -/
theorem ddl_round_widens_then_narrows {σ : Type} (S : Store σ) (w : World σ) (rounds : Nat) :
    execsOf (ddlWorkerIter S w).trace =
      execsOf w.trace ++
        [("ALTER TABLE `uniq`.`rows` MODIFY COLUMN `val0` bigint NOT NULL", []),
         ("ALTER TABLE `uniq`.`rows` MODIFY COLUMN `val0` int NOT NULL", [])] ∧
    ddlWorkerLoop S (rounds + 1) w = ddlWorkerLoop S rounds (ddlWorkerIter S w) ∧
    execsOf (ddlWorkerLoop S rounds w).trace =
      execsOf w.trace ++ (List.range rounds).flatMap
        (fun _ =>
          [("ALTER TABLE `uniq`.`rows` MODIFY COLUMN `val0` bigint NOT NULL", []),
           ("ALTER TABLE `uniq`.`rows` MODIFY COLUMN `val0` int NOT NULL", [])]) := by
  have hq1 : alterQuery "val0" "bigint" =
      "ALTER TABLE `uniq`.`rows` MODIFY COLUMN `val0` bigint NOT NULL" := by decide
  have hq2 : alterQuery "val0" "int" =
      "ALTER TABLE `uniq`.`rows` MODIFY COLUMN `val0` int NOT NULL" := by decide
  refine ⟨?_, rfl, ?_⟩
  · rw [execsOf_ddlWorkerIter, hq1, hq2]
  · rw [execsOf_ddlWorkerLoop, hq1, hq2]

/-! ## Panic freedom of batch generation -/

/-- Outcome of one round under the contract of `rand.Intn` and with a buffer
of the capacity given by `make`: either it returns, handing on a buffer of the
same capacity, or it panics in `log.Panicf` after a failed delete. -/
theorem insertDeleteWorkerIter_outcome {σ : Type} (S : Store σ) (workerID : Int) (d : Draws)
    (paddingBuffer : ByteSlice) (w : World σ)
    (hk : d.sizeIdx < 4) (hs : (d.start : Int) < maxValue0)
    (hcap : paddingBuffer.cap = paddingSize / 2) :
    (∃ buf, (insertDeleteWorkerIter S workerID d paddingBuffer w).2 = .ok buf ∧
      buf.cap = paddingSize / 2) ∨
    ∃ msg, (insertDeleteWorkerIter S workerID d paddingBuffer w).2 =
      .error (.logPanicf
        ("Worker " ++ toString workerID ++ " - Delete error: " ++ ("delete failed: " ++ msg))) := by
  obtain ⟨b, args, _, hbne, hbcap, _, _, hiter⟩ :=
    insertDeleteWorkerIter_eq S workerID d paddingBuffer w hk hs hcap
  have hret := (deleteStep_result S workerID b (insertStep S workerID b w).1 hbne).2
  have hdel := (deleteRows_result S b.val0Values workerID (insertStep S workerID b w).1 hbne).1
  rw [hiter, hret, hdel]
  cases (S.exec (insertStep S workerID b w).1.db (deleteQuery b.val0Values.length)
      (b.val0Values.map Arg.int)).2 with
  | ok n => exact Or.inl ⟨b.paddingBuffer, rfl, hbcap⟩
  | error msg =>
    by_cases hboth :
        (stringsContains msg "public column" && stringsContains msg "has changed") = true
    · simp only [hboth, if_true]
      exact Or.inl ⟨b.paddingBuffer, rfl, hbcap⟩
    · simp only [hboth]
      exact Or.inr ⟨msg, rfl⟩

theorem insertDeleteWorkerLoop_outcome {σ : Type} (S : Store σ) (workerID : Int)
    (draws : Nat → Draws)
    (hd : ∀ k, (draws k).sizeIdx < 4 ∧ ((draws k).start : Int) < maxValue0) :
    ∀ (rounds k : Nat) (paddingBuffer : ByteSlice) (w : World σ),
      paddingBuffer.cap = paddingSize / 2 →
      (∃ buf, (insertDeleteWorkerLoop S workerID draws rounds k paddingBuffer w).2 = .ok buf ∧
        buf.cap = paddingSize / 2) ∨
      ∃ msg, (insertDeleteWorkerLoop S workerID draws rounds k paddingBuffer w).2 =
        .error (.logPanicf
          ("Worker " ++ toString workerID ++ " - Delete error: " ++
            ("delete failed: " ++ msg))) := by
  intro rounds
  induction rounds with
  | zero =>
    intro k paddingBuffer w hcap
    exact Or.inl ⟨paddingBuffer, rfl, hcap⟩
  | succ r ih =>
    intro k paddingBuffer w hcap
    rcases insertDeleteWorkerIter_outcome S workerID (draws k) paddingBuffer w
        (hd k).1 (hd k).2 hcap with ⟨buf, hok, hbcap⟩ | ⟨msg, herr⟩
    · rw [insertDeleteWorkerLoop_succ_ok S workerID draws r k paddingBuffer w buf hok]
      exact ih (k + 1) buf _ hbcap
    · rw [insertDeleteWorkerLoop_succ_error S workerID draws r k paddingBuffer w _ herr]
      exact Or.inr ⟨msg, herr⟩

/-- C10: batch generation never panics, over any sequence of rounds.  With
draws inside the contract of `rand.Intn`, every round finds its size in the
table, its reslice `paddingBuffer[:rowsPerOperation/2]` is within the capacity
`paddingSize / 2 = 128` whatever length the previous round left (the capacity
is handed on unchanged), every indexed write of the row loop and every indexed
read of `insertRows` is in bounds, and the only panic the worker can end in is
the `log.Panicf` after a failed delete. -/
theorem worker_panics_only_on_delete_failure {σ : Type} (S : Store σ) (workerID : Int)
    (draws : Nat → Draws) (rounds : Nat) (w : World σ)
    (hd : ∀ k, (draws k).sizeIdx < 4 ∧ ((draws k).start : Int) < maxValue0) :
    (∀ (k : Nat) (paddingBuffer : ByteSlice), paddingBuffer.cap = paddingSize / 2 →
      ∃ n b args, rowsPerOperationTable[(draws k).sizeIdx]? = some n ∧
        n / 2 ≤ 128 ∧
        paddingBuffer.resliceTo (n / 2) = .ok { paddingBuffer with len := n / 2 } ∧
        generateBatch (draws k) paddingBuffer = .ok b ∧
        b.paddingBuffer.len = n / 2 ∧
        b.paddingBuffer.cap = 128 ∧
        insertRowsArgs b.val1Values b.paddingValues b.val0Values 0 [] = .ok args) ∧
    ((∃ buf, (insertDeleteWorker S workerID draws rounds w).2 = .ok buf ∧ buf.cap = 128) ∨
      ∃ msg, (insertDeleteWorker S workerID draws rounds w).2 =
        .error (.logPanicf
          ("Worker " ++ toString workerID ++ " - Delete error: " ++
            ("delete failed: " ++ msg)))) := by
  constructor
  · intro k paddingBuffer hcap
    obtain ⟨n, hn, hcases⟩ := table_lookup (draws k).sizeIdx (hd k).1
    have hhalf := half_le_cap n paddingBuffer hcases hcap
    obtain ⟨b, hb, h0, h1, h2, hlen, hc⟩ :=
      generateBatch_spec (draws k) paddingBuffer n hn (start_lt_of_lt_maxValue0 _ (hd k).2) hhalf
    have hl0 : b.val0Values.length = n := by simp [h0]
    have hl1 : b.val1Values.length = n := by simp [h1]
    have hl2 : b.paddingValues.length = n := by simp [h2]
    obtain ⟨args, hargs, _⟩ :=
      insertRowsArgs_ok b.val1Values b.paddingValues b.val0Values 0 [] (by omega) (by omega)
    refine ⟨n, b, args, hn, ?_, ?_, hb, hlen, ?_, hargs⟩
    · rw [hcap] at hhalf
      exact hhalf
    · simp [ByteSlice.resliceTo, hhalf]
    · rw [hc, hcap]
      rfl
  · exact insertDeleteWorkerLoop_outcome S workerID draws hd rounds 0 _ _ (makeBytes_cap _)

theorem alternatingDraws_in_contract (k : Nat) :
    (alternatingDraws k).sizeIdx < 4 ∧ ((alternatingDraws k).start : Int) < maxValue0 := by
  unfold alternatingDraws
  split
  · exact ⟨by decide, by decide⟩
  · exact ⟨by decide, by decide⟩

theorem worker_panics_only_on_delete_failure_witness :
    (∀ k, (alternatingDraws k).sizeIdx < 4 ∧ ((alternatingDraws k).start : Int) < maxValue0) ∧
      ((∀ (k : Nat) (paddingBuffer : ByteSlice), paddingBuffer.cap = paddingSize / 2 →
        ∃ n b args, rowsPerOperationTable[(alternatingDraws k).sizeIdx]? = some n ∧
          n / 2 ≤ 128 ∧
          paddingBuffer.resliceTo (n / 2) = .ok { paddingBuffer with len := n / 2 } ∧
          generateBatch (alternatingDraws k) paddingBuffer = .ok b ∧
          b.paddingBuffer.len = n / 2 ∧
          b.paddingBuffer.cap = 128 ∧
          insertRowsArgs b.val1Values b.paddingValues b.val0Values 0 [] = .ok args) ∧
      ((∃ buf, (insertDeleteWorker (acceptingStore 10) 3 alternatingDraws 6 emptyWorld).2 =
          .ok buf ∧ buf.cap = 128) ∨
        ∃ msg, (insertDeleteWorker (acceptingStore 10) 3 alternatingDraws 6 emptyWorld).2 =
          .error (.logPanicf
            ("Worker " ++ toString (3 : Int) ++ " - Delete error: " ++
              ("delete failed: " ++ msg))))) :=
  ⟨alternatingDraws_in_contract,
    worker_panics_only_on_delete_failure (acceptingStore 10) 3 alternatingDraws 6 emptyWorld
      alternatingDraws_in_contract⟩

end DdlAndDelete
